import Mathlib

/-!
Shallow embedding of the SSNIT records management app (src/app.py):
the loader/normalizer `load_data`, the age calculator `calculate_age`,
the identifier validator `validate_unit_holder_id`, and the three query
functions `search_by_unit_holder_id`, `get_withdrawal_records`,
`get_retiree_records`, together with the value-level model of the CSV
export performed by the presentation tabs.

Tabular data is modelled at cell level: a cell is a string, an integer,
or a null (pandas NaN).  Column presence is a table-level flag, matching
the `if col in df.columns` guards of the source.  Library primitives of
Python/pandas that the code calls (str.strip, str.lower, str(), pandas
to_numeric / to_datetime on a cell, the stable ascending multi-key sort
of sort_values with NaN placed last) are modelled by executable Lean
functions defined below.
-/

namespace SSNIT

/-- A cell value in a tabular file: a string, an integer, or a null/NaN cell. -/
inductive Value where
  | str (s : String)
  | num (n : Int)
  | null
deriving DecidableEq

/-- Model of Python `str()` / pandas `astype(str)` on one cell: strings are
unchanged, integers are printed in decimal, NaN prints as "nan". -/
def valueToStr : Value → String
  | .str s => s
  | .num n => toString n
  | .null => "nan"

/-- Model of Python `str.strip` / pandas `.str.strip()` at character-list
level: drop whitespace from the front, then from the back. -/
def stripChars (l : List Char) : List Char :=
  ((l.dropWhile Char.isWhitespace).reverse.dropWhile Char.isWhitespace).reverse

/-- Model of Python `str.strip()`: remove leading and trailing whitespace. -/
def pyStrip (s : String) : String := String.mk (stripChars s.data)

/-- Model of Python `str.lower()` / pandas `.str.lower()`. -/
def pyLower (s : String) : String := String.mk (s.data.map Char.toLower)

/-- Model of pandas `pd.to_numeric(errors = coerce)` on one cell: numbers
pass through, numeric strings are parsed, everything else becomes null. -/
def toNumeric : Value → Option Int
  | .num n => some n
  | .str s => (pyStrip s).toInt?
  | .null => none

/-- A calendar date (the payload of a parsed pandas Timestamp). -/
structure SDate where
  y : Nat
  m : Nat
  d : Nat
deriving DecidableEq

/-- Decimal digit character for a value below ten. -/
def digitChar (n : Nat) : Char := Char.ofNat (48 + n)

/-- Decimal digit value of a character, if it is a digit. -/
def digitVal (c : Char) : Option Nat :=
  if 48 ≤ c.toNat ∧ c.toNat ≤ 57 then some (c.toNat - 48) else none

/-- Fuelled decimal printer for naturals (most significant digit first). -/
def natToDecAux : Nat → Nat → List Char
  | 0, _ => []
  | fuel + 1, n =>
    if n < 10 then [digitChar n]
    else natToDecAux fuel (n / 10) ++ [digitChar (n % 10)]

/-- Decimal printer for naturals. -/
def natToDec (n : Nat) : String := String.mk (natToDecAux (n + 1) n)

/-- Decimal parser accumulator over a character list. -/
def decToNatAux : List Char → Nat → Option Nat
  | [], acc => some acc
  | c :: cs, acc =>
    match digitVal c with
    | some d => decToNatAux cs (acc * 10 + d)
    | none => none

/-- Decimal parser for naturals, rejecting the empty string. -/
def decToNat (s : String) : Option Nat :=
  match s.data with
  | [] => none
  | l => decToNatAux l 0

/-- Split a character list into the maximal groups separated by dashes. -/
def splitDashes : List Char → List (List Char)
  | [] => [[]]
  | c :: cs =>
    if c = '-' then [] :: splitDashes cs
    else
      match splitDashes cs with
      | g :: gs => (c :: g) :: gs
      | [] => [[c]]

/-- Model of pandas date parsing on one string cell (the ISO form
year-month-day, which is also the form dates are serialized back to):
three dash-separated decimal fields with the month in 1..12 and the day
in 1..31; anything else is a parse failure (coerced to NaT). -/
def parseISO (s : String) : Option SDate :=
  match splitDashes s.data with
  | [ys, ms, ds] =>
    match decToNat (String.mk ys), decToNat (String.mk ms), decToNat (String.mk ds) with
    | some y, some m, some d =>
      if 1 ≤ m ∧ m ≤ 12 ∧ 1 ≤ d ∧ d ≤ 31 then some ⟨y, m, d⟩ else none
    | _, _, _ => none
  | _ => none

/-- Serialization of a date back to delimited text (the ISO form a
datetime column takes in a CSV export). -/
def dateToISO (dt : SDate) : String :=
  String.mk (natToDecAux (dt.y + 1) dt.y ++ '-' :: natToDecAux (dt.m + 1) dt.m
    ++ '-' :: natToDecAux (dt.d + 1) dt.d)

/-- Model of pandas `pd.to_datetime(errors = coerce)` on one cell. -/
def parseDate : Value → Option SDate
  | .str s => parseISO s
  | _ => none

/-- The fixed month table of `load_data`: case-insensitive three-letter
abbreviations and full English month names mapped to 1..12. -/
def month_map : String → Option Nat
  | "jan" => some 1
  | "january" => some 1
  | "feb" => some 2
  | "february" => some 2
  | "mar" => some 3
  | "march" => some 3
  | "apr" => some 4
  | "april" => some 4
  | "may" => some 5
  | "jun" => some 6
  | "june" => some 6
  | "jul" => some 7
  | "july" => some 7
  | "aug" => some 8
  | "august" => some 8
  | "sep" => some 9
  | "september" => some 9
  | "oct" => some 10
  | "october" => some 10
  | "nov" => some 11
  | "november" => some 11
  | "dec" => some 12
  | "december" => some 12
  | _ => none

/-- One row of the raw tabular input file, restricted to the recognized
columns (identifier, secondary identifier, the first present date column
of the priority list, year, month, withdrawals).  A field of a column
that is absent from the file is irrelevant and defaults to null. -/
structure RawRow where
  uid : Value := .null
  ssnit : Value := .null
  dob : Value := .null
  year : Value := .null
  month : Value := .null
  withdrawals : Value := .null
deriving DecidableEq

/-- The raw tabular input file: which recognized columns are present,
plus the rows in file order.  `hasDob` records that one of the four
recognized date columns (Date_of_Birth, combined, DOB, Birth_Date) is
present; `RawRow.dob` then holds that column's cell. -/
structure RawTable where
  hasId : Bool
  hasSsnit : Bool
  hasDob : Bool
  hasYear : Bool
  hasMonth : Bool
  hasWithdrawals : Bool
  rows : List RawRow
deriving DecidableEq

/-- One row of the loaded, normalized table.  `month` is the original
Month cell (untouched by the loader), `month_original` its string form,
`month_numeric` the derived sort rank, `withdrawals` the numeric value
after coercion with the fillna(0) default.  `age` models the Age column
some query functions add to their result: `none` means the column is
absent, `some none` is the "N/A" sentinel. -/
@[ext]
structure Record where
  uid : Value
  ssnit : Value
  birth_date : Option SDate
  year : Option Int
  month : Value
  month_original : String
  month_numeric : Option Nat
  withdrawals : Int
  age : Option (Option Int)
deriving DecidableEq

/-- The per-row normalization performed by `load_data`: clean the
secondary identifier to a stripped string, parse the date column into
`birth_date`, coerce Year to numeric, keep the original Month value and
its string form, derive the numeric month rank via the month table on
the lowered and stripped string form, and coerce Withdrawals to numeric
with missing values filled with 0. -/
def normalizeRow (r : RawRow) : Record :=
  { uid := r.uid
    ssnit := .str (pyStrip (valueToStr r.ssnit))
    birth_date := parseDate r.dob
    year := toNumeric r.year
    month := r.month
    month_original := valueToStr r.month
    month_numeric := month_map (pyStrip (pyLower (valueToStr r.month)))
    withdrawals := (toNumeric r.withdrawals).getD 0
    age := none }

/-- The loaded table: column-presence flags plus the normalized rows. -/
structure Dataset where
  hasId : Bool
  hasSsnit : Bool
  hasBirth : Bool
  hasYear : Bool
  hasMonth : Bool
  hasWithdrawals : Bool
  rows : List Record
deriving DecidableEq

/-- Order on optional sort keys used by pandas sort_values: null (NaN)
sorts after every proper value, regardless of the ascending flag. -/
def optLE {α : Type} [LinearOrder α] : Option α → Option α → Bool
  | none, none => true
  | some _, none => true
  | none, some _ => false
  | some x, some y => decide (x ≤ y)

/-- The chronological comparison of `sort_values` on the key list
(Year, Month_numeric): lexicographic, ascending, nulls last. -/
def chronoLE {α : Type} (yr : α → Option Int) (mo : α → Option Nat) (a b : α) : Bool :=
  if yr a = yr b then optLE (mo a) (mo b) else optLE (yr a) (yr b)

/-- Model of `df.sort_values` on the key list (Year, Month_numeric),
ascending, nulls last: pandas multi-key sorting is stable, and insertion
sort with the non-strict key comparison is the stable sort. -/
def sortChronoBy {α : Type} (yr : α → Option Int) (mo : α → Option Nat)
    (l : List α) : List α :=
  List.insertionSort (fun a b => chronoLE yr mo a b = true) l

/-- The chronological row comparison on loaded records. -/
def chronoR (a b : Record) : Prop :=
  chronoLE Record.year Record.month_numeric a b = true

/-- Chronological sort of loaded records. -/
def sortChrono (l : List Record) : List Record :=
  sortChronoBy Record.year Record.month_numeric l

/-- Model of `load_data` on an already-read raw table (file discovery
and I/O are presentation-level): normalize every row, then sort the
whole table chronologically, oldest first, provided both the Year and
the Month_numeric columns exist. -/
def load_data (t : RawTable) : Dataset :=
  let rows := t.rows.map normalizeRow
  { hasId := t.hasId
    hasSsnit := t.hasSsnit
    hasBirth := t.hasDob
    hasYear := t.hasYear
    hasMonth := t.hasMonth
    hasWithdrawals := t.hasWithdrawals
    rows := if t.hasYear && t.hasMonth then sortChrono rows else rows }

/-- Model of `validate_unit_holder_id`: an empty input is rejected with
the enter-an-id message, an input whose stripped form is shorter than 3
characters is rejected with the too-short message naming the length, and
otherwise the stripped identifier is accepted. -/
def validate_unit_holder_id (unit_holder_id : String) : Bool × String :=
  if unit_holder_id = "" then (false, "Please enter a Unit Holder ID")
  else
    let unit_holder_clean := pyStrip unit_holder_id
    if unit_holder_clean.length < 3 then
      (false, "Unit Holder ID seems too short (currently "
        ++ toString unit_holder_clean.length ++ " characters)")
    else (true, unit_holder_clean)

/-- Model of `calculate_age` on the loaded birth_date column (a parsed
date or NaT): "N/A" is `none`; otherwise the year difference minus one
when today's (month, day) pair precedes the birth (month, day) pair in
Python tuple order.  The function is total, so it never raises. -/
def calculate_age (today : SDate) (birth_date : Option SDate) : Option Int :=
  match birth_date with
  | none => none
  | some b =>
    some ((today.y : Int) - (b.y : Int)
      - (if today.m < b.m ∨ (today.m = b.m ∧ today.d < b.d) then 1 else 0))

/-- The in-place rewrite `search_by_unit_holder_id` applies to the
identifier column of its working copy: string form, stripped. -/
def stripUid (r : Record) : Record :=
  { r with uid := Value.str (pyStrip (valueToStr r.uid)) }

/-- The part of `search_by_unit_holder_id` after the identifier column
of the working copy has been rewritten: filter on equality with the
stripped query, return two empty frames when nothing matches, otherwise
re-sort chronologically when both sort columns exist and return the last
row as the latest record together with the full sorted history. -/
def searchFrom (ds : Dataset) (qs : String) : List Record × List Record :=
  let all_results := ds.rows.filter (fun r => decide (r.uid = Value.str qs))
  if all_results.isEmpty then ([], [])
  else
    let sorted := if ds.hasYear && ds.hasMonth then sortChrono all_results else all_results
    (sorted.getLast?.toList, sorted)

/-- Model of `search_by_unit_holder_id`: empty results when there is no
identifier column; otherwise both the stored identifiers (on a copy) and
the query are reduced to stripped string form before comparison. -/
def search_by_unit_holder_id (ds : Dataset) (q : Value) : List Record × List Record :=
  if ds.hasId = false then ([], [])
  else searchFrom { ds with rows := ds.rows.map stripUid } (pyStrip (valueToStr q))

/-- The Age-column assignment `x['Age'] = x['birth_date'].apply(calculate_age)`. -/
def withAge (today : SDate) (r : Record) : Record :=
  { r with age := some (calculate_age today r.birth_date) }

/-- Model of `get_withdrawal_records`: empty when there is no
Withdrawals column; otherwise keep the rows whose withdrawals value is
not 0, add the Age column when a birth_date column exists, and re-sort
chronologically when both sort columns exist. -/
def get_withdrawal_records (today : SDate) (ds : Dataset) : List Record :=
  if ds.hasWithdrawals = false then []
  else
    let filtered := ds.rows.filter (fun r => decide (r.withdrawals ≠ 0))
    let withdrawal_records := if ds.hasBirth then filtered.map (withAge today) else filtered
    if ds.hasYear && ds.hasMonth then sortChrono withdrawal_records else withdrawal_records

/-- Model of `get_retiree_records`: empty when there is no birth_date
column; otherwise add the Age column on a copy, keep the rows whose Age
is not the "N/A" sentinel, of those keep the rows with Age at least 60,
and re-sort chronologically when both sort columns exist. -/
def get_retiree_records (today : SDate) (ds : Dataset) : List Record :=
  if ds.hasBirth = false then []
  else
    let df_with_age := ds.rows.map (withAge today)
    let numeric_ages := df_with_age.filter (fun r => decide (r.age ≠ some none))
    let retiree_records := numeric_ages.filter (fun r =>
      match r.age with
      | some (some a) => decide (60 ≤ a)
      | _ => false)
    if ds.hasYear && ds.hasMonth then sortChrono retiree_records else retiree_records

/-- Serialization of one loaded record back to raw cells, as performed
by the export paths of the presentation tabs: the subset is restricted
to the columns of the loaded frame (which drops a derived Age column),
and when a Month column exists its cell is overwritten with the
preserved original month string before writing.  Dates are written in
ISO form, numeric cells as numbers, nulls as empty cells. -/
def exportRow (hasMonth : Bool) (r : Record) : RawRow :=
  { uid := r.uid
    ssnit := r.ssnit
    dob := match r.birth_date with
           | some dt => .str (dateToISO dt)
           | none => .null
    year := match r.year with
            | some y => .num y
            | none => .null
    month := if hasMonth then .str r.month_original else r.month
    withdrawals := .num r.withdrawals }

/-- The exported delimited-text file for a caller-selected subset of
rows: the column set of the loaded frame, in its order, with the rows
serialized by `exportRow`. -/
def exportTable (ds : Dataset) (subset : List Record) : RawTable :=
  { hasId := ds.hasId
    hasSsnit := ds.hasSsnit
    hasDob := ds.hasBirth
    hasYear := ds.hasYear
    hasMonth := ds.hasMonth
    hasWithdrawals := ds.hasWithdrawals
    rows := subset.map (exportRow ds.hasMonth) }

/-- A heap of data frames, for stating the frame conditions of the
query functions: a Python DataFrame variable is an index into the heap,
`.copy()` allocates a fresh slot, and a column assignment mutates the
frame in its slot in place. -/
abbrev Heap := List Dataset

/-- Stateful rendering of `search_by_unit_holder_id` over a frame heap:
the caller's frame sits at index `i`; `df.copy()` allocates a new slot
at the end of the heap, and the identifier-column assignment mutates
that copy in place.  Returns the final heap and the result pair. -/
def search_by_unit_holder_id_st (h : Heap) (i : Nat) (q : Value) :
    Heap × (List Record × List Record) :=
  match h.get? i with
  | none => (h, ([], []))
  | some ds =>
    if ds.hasId = false then (h, ([], []))
    else
      let j := h.length
      let h1 := h ++ [ds]
      let h2 := h1.set j { ds with rows := ds.rows.map stripUid }
      let df_copy := (h2.get? j).getD ds
      (h2, searchFrom df_copy (pyStrip (valueToStr q)))

/-- Stateful rendering of `get_withdrawal_records` over a frame heap:
the filtered selection is copied into a fresh slot, and the Age-column
assignment (performed only when a birth_date column exists) mutates that
copy in place; the final sort returns a new frame. -/
def get_withdrawal_records_st (h : Heap) (i : Nat) (today : SDate) :
    Heap × List Record :=
  match h.get? i with
  | none => (h, [])
  | some ds =>
    if ds.hasWithdrawals = false then (h, [])
    else
      let filtered := ds.rows.filter (fun r => decide (r.withdrawals ≠ 0))
      let j := h.length
      let h1 := h ++ [{ ds with rows := filtered }]
      let withdrawal_records := if ds.hasBirth then filtered.map (withAge today) else filtered
      let h2 := if ds.hasBirth then h1.set j { ds with rows := withdrawal_records } else h1
      (h2, if ds.hasYear && ds.hasMonth then sortChrono withdrawal_records else withdrawal_records)

/-- Stateful rendering of `get_retiree_records` over a frame heap: the
whole frame is copied into a fresh slot, the Age-column assignment
mutates that copy in place, and the filters and the sort return new
frames. -/
def get_retiree_records_st (h : Heap) (i : Nat) (today : SDate) :
    Heap × List Record :=
  match h.get? i with
  | none => (h, [])
  | some ds =>
    if ds.hasBirth = false then (h, [])
    else
      let j := h.length
      let h1 := h ++ [ds]
      let h2 := h1.set j { ds with rows := ds.rows.map (withAge today) }
      let df_with_age := (h2.get? j).getD ds
      let numeric_ages := df_with_age.rows.filter (fun r => decide (r.age ≠ some none))
      let retiree_records := numeric_ages.filter (fun r =>
        match r.age with
        | some (some a) => decide (60 ≤ a)
        | _ => false)
      (h2, if ds.hasYear && ds.hasMonth then sortChrono retiree_records else retiree_records)

/-- The chronological record comparison is decidable. -/
instance : DecidableRel chronoR := fun a b => by unfold chronoR; infer_instance

/-! ### Facts about the string-stripping model -/

theorem stripChars_eq_rdropWhile (l : List Char) :
    stripChars l = List.rdropWhile Char.isWhitespace (List.dropWhile Char.isWhitespace l) := rfl

theorem dropWhile_cons_not {α : Type} (p : α → Bool) (l : List α) (c : α) (cs : List α)
    (h : List.dropWhile p l = c :: cs) : p c = false := by
  induction l with
  | nil => simp [List.dropWhile] at h
  | cons a as ih =>
    rw [List.dropWhile_cons] at h
    by_cases hp : p a
    · rw [if_pos hp] at h
      exact ih h
    · rw [if_neg hp] at h
      cases h
      simpa using hp

theorem dropWhile_stripChars (l : List Char) :
    List.dropWhile Char.isWhitespace (stripChars l) = stripChars l := by
  cases hS : stripChars l with
  | nil => rfl
  | cons c cs =>
    have hpre : stripChars l <+: List.dropWhile Char.isWhitespace l := by
      rw [stripChars_eq_rdropWhile]
      exact List.rdropWhile_prefix _ _
    obtain ⟨t, ht⟩ := hpre
    rw [hS] at ht
    have hc : c.isWhitespace = false := dropWhile_cons_not _ l c (cs ++ t) ht.symm
    rw [List.dropWhile_cons, hc]
    simp

theorem stripChars_idem (l : List Char) : stripChars (stripChars l) = stripChars l := by
  rw [stripChars_eq_rdropWhile (stripChars l), dropWhile_stripChars,
    stripChars_eq_rdropWhile, List.rdropWhile_idempotent]

theorem pyStrip_idem (s : String) : pyStrip (pyStrip s) = pyStrip s := by
  show String.mk (stripChars (stripChars s.data)) = String.mk (stripChars s.data)
  rw [stripChars_idem]

/-! ### Round trip of the decimal and date serializers -/

theorem digitVal_digitChar {n : Nat} (h : n < 10) : digitVal (digitChar n) = some n := by
  interval_cases n <;> rfl

theorem digitChar_ne_dash {n : Nat} (h : n < 10) : digitChar n ≠ '-' := by
  interval_cases n <;> decide

theorem decToNatAux_append (l1 l2 : List Char) (acc : Nat) :
    decToNatAux (l1 ++ l2) acc =
      match decToNatAux l1 acc with
      | some a => decToNatAux l2 a
      | none => none := by
  induction l1 generalizing acc with
  | nil => rfl
  | cons c cs ih =>
    cases hv : digitVal c with
    | some d =>
      simp only [List.cons_append, decToNatAux, hv]
      exact ih _
    | none =>
      simp only [List.cons_append, decToNatAux, hv]

theorem decToNatAux_natToDecAux :
    ∀ (fuel n acc : Nat), n < fuel →
      decToNatAux (natToDecAux fuel n) acc =
        some (acc * 10 ^ (natToDecAux fuel n).length + n) := by
  intro fuel
  induction fuel with
  | zero => omega
  | succ f ih =>
    intro n acc hn
    by_cases h10 : n < 10
    · simp only [natToDecAux, if_pos h10]
      unfold decToNatAux
      rw [digitVal_digitChar h10]
      simp [decToNatAux]
    · have hdiv : n / 10 < f := by
        have h1 : n / 10 < n := Nat.div_lt_self (by omega) (by omega)
        omega
      simp only [natToDecAux, if_neg h10]
      rw [decToNatAux_append, ih _ acc hdiv]
      show decToNatAux [digitChar (n % 10)] _ = _
      unfold decToNatAux
      rw [digitVal_digitChar (Nat.mod_lt _ (by omega))]
      unfold decToNatAux
      congr 1
      rw [List.length_append, List.length_singleton, pow_succ]
      generalize (10 : Nat) ^ (natToDecAux f (n / 10)).length = P
      have hexp : (acc * P + n / 10) * 10 + n % 10 = acc * (P * 10) + (n / 10 * 10 + n % 10) := by
        ring
      rw [hexp]
      congr 1
      omega

theorem natToDecAux_ne_nil (fuel n : Nat) (h : 0 < fuel) : natToDecAux fuel n ≠ [] := by
  match fuel with
  | f + 1 =>
    unfold natToDecAux
    by_cases h10 : n < 10
    · simp [h10]
    · simp [h10]

theorem decToNat_natToDecAux (n : Nat) :
    decToNat (String.mk (natToDecAux (n + 1) n)) = some n := by
  unfold decToNat
  have hne := natToDecAux_ne_nil (n + 1) n (by omega)
  have hval := decToNatAux_natToDecAux (n + 1) n 0 (by omega)
  cases hl : natToDecAux (n + 1) n with
  | nil => exact absurd hl hne
  | cons c cs =>
    rw [hl] at hval
    simpa using hval

theorem mem_natToDecAux_ne_dash :
    ∀ (fuel n : Nat) (c : Char), c ∈ natToDecAux fuel n → c ≠ '-' := by
  intro fuel
  induction fuel with
  | zero => intro n c hc; simp [natToDecAux] at hc
  | succ f ih =>
    intro n c hc
    by_cases h10 : n < 10
    · simp only [natToDecAux, if_pos h10, List.mem_singleton] at hc
      subst hc
      exact digitChar_ne_dash h10
    · simp only [natToDecAux, if_neg h10, List.mem_append, List.mem_singleton] at hc
      rcases hc with hc | hc
      · exact ih _ _ hc
      · subst hc
        exact digitChar_ne_dash (Nat.mod_lt _ (by omega))

theorem splitDashes_cons (c : Char) (cs : List Char) :
    splitDashes (c :: cs) =
      if c = '-' then [] :: splitDashes cs
      else
        match splitDashes cs with
        | g :: gs => (c :: g) :: gs
        | [] => [[c]] := rfl

theorem splitDashes_dashFree (a : List Char) (ha : ∀ c ∈ a, c ≠ '-') :
    splitDashes a = [a] := by
  induction a with
  | nil => rfl
  | cons c cs ih =>
    have hc : c ≠ '-' := ha c (by simp)
    rw [splitDashes_cons, if_neg hc, ih (fun x hx => ha x (by simp [hx]))]

theorem splitDashes_append (a rest : List Char) (ha : ∀ c ∈ a, c ≠ '-') :
    splitDashes (a ++ '-' :: rest) = a :: splitDashes rest := by
  induction a with
  | nil =>
    show splitDashes ('-' :: rest) = _
    rw [splitDashes_cons, if_pos rfl]
  | cons c cs ih =>
    have hc : c ≠ '-' := ha c (by simp)
    show splitDashes (c :: (cs ++ '-' :: rest)) = _
    rw [splitDashes_cons, if_neg hc, ih (fun x hx => ha x (by simp [hx]))]

theorem decToNat_mk_ne_nil (l : List Char) (h : l ≠ []) :
    decToNat (String.mk l) = decToNatAux l 0 := by
  cases l with
  | nil => exact absurd rfl h
  | cons c cs => rfl

/-- A date produced by the parser parses back from its serialized form. -/
theorem parseISO_dateToISO (dt : SDate)
    (h : 1 ≤ dt.m ∧ dt.m ≤ 12 ∧ 1 ≤ dt.d ∧ dt.d ≤ 31) :
    parseISO (dateToISO dt) = some dt := by
  have hy := mem_natToDecAux_ne_dash (dt.y + 1) dt.y
  have hsplit : splitDashes (natToDecAux (dt.y + 1) dt.y ++ '-' :: (natToDecAux (dt.m + 1) dt.m
      ++ '-' :: natToDecAux (dt.d + 1) dt.d))
      = [natToDecAux (dt.y + 1) dt.y, natToDecAux (dt.m + 1) dt.m, natToDecAux (dt.d + 1) dt.d] := by
    rw [splitDashes_append _ _ (fun c hc => mem_natToDecAux_ne_dash _ _ c hc),
      splitDashes_append _ _ (fun c hc => mem_natToDecAux_ne_dash _ _ c hc),
      splitDashes_dashFree _ (fun c hc => mem_natToDecAux_ne_dash _ _ c hc)]
  show parseISO (String.mk _) = some dt
  unfold parseISO
  rw [show (String.mk (natToDecAux (dt.y + 1) dt.y ++ '-' :: natToDecAux (dt.m + 1) dt.m
      ++ '-' :: natToDecAux (dt.d + 1) dt.d)).data
      = natToDecAux (dt.y + 1) dt.y ++ '-' :: (natToDecAux (dt.m + 1) dt.m
      ++ '-' :: natToDecAux (dt.d + 1) dt.d) from by simp]
  rw [hsplit]
  dsimp only
  rw [decToNat_natToDecAux dt.y, decToNat_natToDecAux dt.m, decToNat_natToDecAux dt.d]
  simp [h.1, h.2.1, h.2.2.1, h.2.2.2]

/-- Every date the parser accepts has its month and day in range. -/
theorem parseISO_valid (s : String) (dt : SDate) (h : parseISO s = some dt) :
    1 ≤ dt.m ∧ dt.m ≤ 12 ∧ 1 ≤ dt.d ∧ dt.d ≤ 31 := by
  unfold parseISO at h
  split at h
  case _ ys ms ds heq =>
    split at h
    case _ y m d hy hm hd =>
      split at h
      case isTrue hcond =>
        cases h
        exact hcond
      case isFalse => cases h
    case _ => cases h
  case _ => cases h

theorem parseDate_dateToISO (v : Value) (dt : SDate) (h : parseDate v = some dt) :
    parseDate (Value.str (dateToISO dt)) = some dt := by
  cases v with
  | str s =>
    show parseISO (dateToISO dt) = some dt
    exact parseISO_dateToISO dt (parseISO_valid s dt h)
  | num n => cases h
  | null => cases h

/-! ### Facts about the chronological order and sort -/

theorem optLE_refl {α : Type} [LinearOrder α] (a : Option α) : optLE a a = true := by
  cases a <;> simp [optLE]

theorem optLE_total {α : Type} [LinearOrder α] (a b : Option α) :
    optLE a b = true ∨ optLE b a = true := by
  cases a <;> cases b <;> simp [optLE, le_total]

theorem optLE_trans {α : Type} [LinearOrder α] {a b c : Option α}
    (h1 : optLE a b = true) (h2 : optLE b c = true) : optLE a c = true := by
  cases a <;> cases b <;> cases c <;> simp [optLE] at * <;> exact le_trans h1 h2

theorem optLE_antisymm {α : Type} [LinearOrder α] {a b : Option α}
    (h1 : optLE a b = true) (h2 : optLE b a = true) : a = b := by
  cases a <;> cases b <;> simp [optLE] at * <;> exact le_antisymm h1 h2

theorem chronoLE_total {α : Type} (yr : α → Option Int) (mo : α → Option Nat) (a b : α) :
    chronoLE yr mo a b = true ∨ chronoLE yr mo b a = true := by
  unfold chronoLE
  by_cases h : yr a = yr b
  · rw [if_pos h, if_pos h.symm]
    exact optLE_total _ _
  · rw [if_neg h, if_neg (fun hba => h hba.symm)]
    exact optLE_total _ _

theorem chronoLE_trans {α : Type} (yr : α → Option Int) (mo : α → Option Nat) {a b c : α}
    (h1 : chronoLE yr mo a b = true) (h2 : chronoLE yr mo b c = true) :
    chronoLE yr mo a c = true := by
  unfold chronoLE at *
  by_cases hab : yr a = yr b
  · rw [if_pos hab] at h1
    by_cases hbc : yr b = yr c
    · rw [if_pos hbc] at h2
      rw [if_pos (hab.trans hbc)]
      exact optLE_trans h1 h2
    · rw [if_neg hbc] at h2
      rw [if_neg (fun h => hbc (hab.symm.trans h)), hab]
      exact h2
  · rw [if_neg hab] at h1
    by_cases hbc : yr b = yr c
    · rw [if_neg (fun h => hab (h.trans hbc.symm)), ← hbc]
      exact h1
    · rw [if_neg hbc] at h2
      by_cases hac : yr a = yr c
      · exact absurd (optLE_antisymm h1 (hac ▸ h2)) hab
      · rw [if_neg hac]
        exact optLE_trans h1 h2

theorem sortChronoBy_perm {α : Type} (yr : α → Option Int) (mo : α → Option Nat) (l : List α) :
    List.Perm (sortChronoBy yr mo l) l :=
  List.perm_insertionSort _ l

theorem mem_sortChronoBy {α : Type} (yr : α → Option Int) (mo : α → Option Nat)
    (l : List α) (a : α) : a ∈ sortChronoBy yr mo l ↔ a ∈ l :=
  (sortChronoBy_perm yr mo l).mem_iff

theorem sorted_sortChronoBy {α : Type} (yr : α → Option Int) (mo : α → Option Nat) (l : List α) :
    List.Pairwise (fun a b => chronoLE yr mo a b = true) (sortChronoBy yr mo l) :=
  @List.sorted_insertionSort α (fun a b => chronoLE yr mo a b = true) _
    ⟨chronoLE_total yr mo⟩ ⟨fun _ _ _ => chronoLE_trans yr mo⟩ l

theorem sortChronoBy_eq_self {α : Type} (yr : α → Option Int) (mo : α → Option Nat)
    {l : List α} (h : List.Pairwise (fun a b => chronoLE yr mo a b = true) l) :
    sortChronoBy yr mo l = l :=
  List.Sorted.insertionSort_eq h

theorem sorted_sortChrono (l : List Record) : List.Pairwise chronoR (sortChrono l) :=
  sorted_sortChronoBy Record.year Record.month_numeric l

theorem mem_sortChrono (l : List Record) (a : Record) : a ∈ sortChrono l ↔ a ∈ l :=
  mem_sortChronoBy Record.year Record.month_numeric l a

theorem sortChrono_eq_self {l : List Record} (h : List.Pairwise chronoR l) :
    sortChrono l = l :=
  sortChronoBy_eq_self Record.year Record.month_numeric h

theorem sortChrono_eq_nil {l : List Record} : sortChrono l = [] ↔ l = [] := by
  constructor
  · intro h
    have := (sortChronoBy_perm Record.year Record.month_numeric l).length_eq
    rw [show sortChronoBy Record.year Record.month_numeric l = sortChrono l from rfl, h] at this
    exact List.length_eq_zero.mp this.symm
  · intro h
    rw [h]
    rfl

/-! ### Characterization of the loaded rows -/

theorem load_data_rows (t : RawTable) :
    (load_data t).rows =
      if t.hasYear && t.hasMonth then sortChrono (t.rows.map normalizeRow)
      else t.rows.map normalizeRow := rfl

theorem mem_load_data (t : RawTable) (r : Record) :
    r ∈ (load_data t).rows ↔ ∃ raw ∈ t.rows, r = normalizeRow raw := by
  rw [load_data_rows]
  by_cases h : (t.hasYear && t.hasMonth) = true
  · rw [if_pos h, mem_sortChrono, List.mem_map]
    simp [eq_comm]
  · rw [if_neg h, List.mem_map]
    simp [eq_comm]

/-! ### Let-free unfoldings of the query functions -/

theorem searchFrom_def (ds : Dataset) (qs : String) :
    searchFrom ds qs =
      if (ds.rows.filter (fun r => decide (r.uid = Value.str qs))).isEmpty then ([], [])
      else
        ((if (ds.hasYear && ds.hasMonth) = true
            then sortChrono (ds.rows.filter (fun r => decide (r.uid = Value.str qs)))
            else ds.rows.filter (fun r => decide (r.uid = Value.str qs))).getLast?.toList,
         if (ds.hasYear && ds.hasMonth) = true
            then sortChrono (ds.rows.filter (fun r => decide (r.uid = Value.str qs)))
            else ds.rows.filter (fun r => decide (r.uid = Value.str qs))) := rfl

theorem get_withdrawal_records_def (today : SDate) (ds : Dataset) :
    get_withdrawal_records today ds =
      if ds.hasWithdrawals = false then []
      else
        if (ds.hasYear && ds.hasMonth) = true
        then sortChrono (if ds.hasBirth = true
          then (ds.rows.filter (fun r => decide (r.withdrawals ≠ 0))).map (withAge today)
          else ds.rows.filter (fun r => decide (r.withdrawals ≠ 0)))
        else (if ds.hasBirth = true
          then (ds.rows.filter (fun r => decide (r.withdrawals ≠ 0))).map (withAge today)
          else ds.rows.filter (fun r => decide (r.withdrawals ≠ 0))) := rfl

theorem get_retiree_records_def (today : SDate) (ds : Dataset) :
    get_retiree_records today ds =
      if ds.hasBirth = false then []
      else
        if (ds.hasYear && ds.hasMonth) = true
        then sortChrono (((ds.rows.map (withAge today)).filter
              (fun r => decide (r.age ≠ some none))).filter (fun r =>
                match r.age with
                | some (some a) => decide (60 ≤ a)
                | _ => false))
        else ((ds.rows.map (withAge today)).filter
              (fun r => decide (r.age ≠ some none))).filter (fun r =>
                match r.age with
                | some (some a) => decide (60 ≤ a)
                | _ => false) := rfl

/-! ### Claim theorems -/

/-- C2: for every parseable birth date, `calculate_age` returns the exact
calendar age (the year difference between the reference date and the birth
date, decremented by one exactly when the reference (month, day) pair is
lexicographically below the birth (month, day) pair), it returns the "N/A"
sentinel (`none`) for an absent or unparseable birth date, and — being a
total function — it never raises.  Boundary vectors: birth 2000-06-15 gives
age 23 as of 2024-06-14 and age 24 as of 2024-06-15. -/
theorem calculate_age_exact_calendar :
    (∀ today b : SDate, (today.m < b.m ∨ (today.m = b.m ∧ today.d < b.d)) →
      calculate_age today (some b) = some ((today.y : Int) - b.y - 1)) ∧
    (∀ today b : SDate, ¬(today.m < b.m ∨ (today.m = b.m ∧ today.d < b.d)) →
      calculate_age today (some b) = some ((today.y : Int) - b.y)) ∧
    (∀ today : SDate, calculate_age today none = none) ∧
    (∀ (today : SDate) (s : String), parseISO s = none →
      calculate_age today (parseDate (Value.str s)) = none) ∧
    calculate_age ⟨2024, 6, 14⟩ (some ⟨2000, 6, 15⟩) = some 23 ∧
    calculate_age ⟨2024, 6, 15⟩ (some ⟨2000, 6, 15⟩) = some 24 := by
  refine ⟨?_, ?_, ?_, ?_, by decide, by decide⟩
  · intro today b h
    simp only [calculate_age]
    rw [if_pos h]
  · intro today b h
    simp only [calculate_age]
    rw [if_neg h]
    simp
  · intro today
    rfl
  · intro today s h
    show calculate_age today (parseISO s) = none
    rw [h]
    rfl

/-- Witness for C2 at a concrete boundary input. -/
theorem calculate_age_exact_calendar_witness :
    calculate_age ⟨2024, 1, 1⟩ (some ⟨2000, 6, 15⟩) = some ((2024 : Int) - 2000 - 1) :=
  calculate_age_exact_calendar.1 ⟨2024, 1, 1⟩ ⟨2000, 6, 15⟩ (by decide)

/-- C9: identifier validation rejects exactly the empty input and the
inputs whose stripped form is shorter than 3 characters, each with its own
descriptive message, and otherwise accepts and yields the stripped
identifier for the lookup. -/
theorem validate_unit_holder_id_spec :
    ∀ s : String,
      ((validate_unit_holder_id s).1 = false ↔ s = "" ∨ (pyStrip s).length < 3) ∧
      ((validate_unit_holder_id s).1 = true → (validate_unit_holder_id s).2 = pyStrip s) ∧
      (s = "" → (validate_unit_holder_id s).2 = "Please enter a Unit Holder ID") ∧
      (s ≠ "" → (pyStrip s).length < 3 →
        (validate_unit_holder_id s).2 =
          "Unit Holder ID seems too short (currently "
            ++ toString (pyStrip s).length ++ " characters)") := by
  intro s
  by_cases hs : s = ""
  · subst hs
    refine ⟨by simp [validate_unit_holder_id], ?_, fun _ => rfl, fun h => absurd rfl h⟩
    intro h
    simp [validate_unit_holder_id] at h
  · by_cases hlen : (pyStrip s).length < 3
    · refine ⟨?_, ?_, fun h => absurd h hs, fun _ _ => ?_⟩
      · simp [validate_unit_holder_id, hs, hlen]
      · intro h
        simp [validate_unit_holder_id, hs, hlen] at h
      · simp [validate_unit_holder_id, hs, hlen]
    · refine ⟨?_, fun _ => ?_, fun h => absurd h hs, fun _ h => absurd h hlen⟩
      · simp [validate_unit_holder_id, hs, hlen]
      · simp [validate_unit_holder_id, hs, hlen]

/-- Witness for C9 at a concrete too-short input. -/
theorem validate_unit_holder_id_spec_witness :
    (validate_unit_holder_id " ab ").2 =
      "Unit Holder ID seems too short (currently "
        ++ toString (pyStrip " ab ").length ++ " characters)" :=
  (validate_unit_holder_id_spec " ab ").2.2.2 (by decide) (by decide)

/-- C8: the query layer is safe on empty and column-deficient datasets:
`search_by_unit_holder_id` returns two empty frames whenever no stored
identifier matches (in particular on an empty dataset or without the
identifier column), and the withdrawal and retiree filters return empty
frames on an empty dataset or without their required column; all three
are total functions, so none of them can raise. -/
theorem query_layer_empty_safe :
    (∀ (ds : Dataset) (q : Value),
      (∀ r ∈ ds.rows, pyStrip (valueToStr r.uid) ≠ pyStrip (valueToStr q)) →
      search_by_unit_holder_id ds q = ([], [])) ∧
    (∀ (b1 b2 b3 b4 b5 b6 : Bool) (q : Value) (today : SDate),
      search_by_unit_holder_id ⟨b1, b2, b3, b4, b5, b6, []⟩ q = ([], []) ∧
      get_withdrawal_records today ⟨b1, b2, b3, b4, b5, b6, []⟩ = [] ∧
      get_retiree_records today ⟨b1, b2, b3, b4, b5, b6, []⟩ = []) ∧
    (∀ (ds : Dataset) (q : Value) (today : SDate),
      (ds.hasId = false → search_by_unit_holder_id ds q = ([], [])) ∧
      (ds.hasWithdrawals = false → get_withdrawal_records today ds = []) ∧
      (ds.hasBirth = false → get_retiree_records today ds = [])) := by
  refine ⟨?_, ?_, ?_⟩
  · intro ds q hnone
    unfold search_by_unit_holder_id
    by_cases hid : ds.hasId = false
    · rw [if_pos hid]
    · rw [if_neg hid]
      unfold searchFrom
      have hfil : (ds.rows.map stripUid).filter
          (fun r => decide (r.uid = Value.str (pyStrip (valueToStr q)))) = [] := by
        rw [List.filter_eq_nil_iff]
        intro a ha
        rw [List.mem_map] at ha
        obtain ⟨r0, hr0, rfl⟩ := ha
        simp only [stripUid, decide_eq_true_eq, Value.str.injEq]
        exact hnone r0 hr0
      rw [hfil]
      rfl
  · intro b1 b2 b3 b4 b5 b6 q today
    refine ⟨?_, ?_, ?_⟩
    · cases b1 <;> rfl
    · cases b3 <;> cases b4 <;> cases b5 <;> cases b6 <;> rfl
    · cases b3 <;> cases b4 <;> cases b5 <;> rfl
  · intro ds q today
    refine ⟨?_, ?_, ?_⟩
    · intro h
      unfold search_by_unit_holder_id
      rw [if_pos h]
    · intro h
      unfold get_withdrawal_records
      rw [if_pos h]
    · intro h
      unfold get_retiree_records
      rw [if_pos h]

/-- Witness for C8: a lookup of an identifier absent from a concrete
one-row dataset returns two empty frames. -/
theorem query_layer_empty_safe_witness :
    search_by_unit_holder_id
      ⟨true, false, false, false, false, false,
        [⟨Value.str "abc", Value.null, none, none, Value.null, "", none, 0, none⟩]⟩
      (Value.str "zzz") = ([], []) :=
  query_layer_empty_safe.1 _ _ (by decide)

/-- C4: every record returned by the retiree filter carries a numeric
(non-sentinel) computed age of at least 60, that age is exactly the one
`calculate_age` computes from the record's birth date, and records with an
absent birth date (whose age is the sentinel) are discarded before the
60-threshold comparison, so they never appear. -/
theorem get_retiree_records_spec :
    ∀ (today : SDate) (ds : Dataset) (r : Record),
      r ∈ get_retiree_records today ds →
      (∃ a : Int, r.age = some (some a) ∧ 60 ≤ a) ∧
      r.birth_date ≠ none ∧
      r.age = some (calculate_age today r.birth_date) := by
  intro today ds r hr
  rw [get_retiree_records_def] at hr
  by_cases hb : ds.hasBirth = false
  · rw [if_pos hb] at hr
    cases hr
  · rw [if_neg hb] at hr
    have hr2 : r ∈ ((ds.rows.map (withAge today)).filter
        (fun r => decide (r.age ≠ some none))).filter (fun r =>
          match r.age with
          | some (some a) => decide (60 ≤ a)
          | _ => false) := by
      by_cases hf : (ds.hasYear && ds.hasMonth) = true
      · rw [if_pos hf] at hr
        exact (mem_sortChrono _ r).mp hr
      · rwa [if_neg hf] at hr
    rw [List.mem_filter] at hr2
    obtain ⟨hr3, hage60⟩ := hr2
    rw [List.mem_filter] at hr3
    obtain ⟨hr4, hnotna⟩ := hr3
    rw [List.mem_map] at hr4
    obtain ⟨r0, _, rfl⟩ := hr4
    have hageval : (withAge today r0).age = some (calculate_age today r0.birth_date) := rfl
    have hbd : (withAge today r0).birth_date = r0.birth_date := rfl
    refine ⟨?_, ?_, hageval⟩
    · rcases hage : (withAge today r0).age with _ | ao
      · rw [hage] at hnotna hage60
        cases hage60
      · rcases ao with _ | a
        · rw [hage] at hnotna
          simp at hnotna
        · rw [hage] at hage60
          exact ⟨a, rfl, by simpa using hage60⟩
    · intro hnonebd
      rw [hbd] at hnonebd
      rw [hnonebd] at hageval
      rw [hageval] at hnotna
      simp [calculate_age] at hnotna

/-- Witness for C4 at a concrete dataset holding one retiree. -/
theorem get_retiree_records_spec_witness :
    (∃ a : Int,
      (withAge ⟨2024, 6, 15⟩
        ⟨Value.str "R1", Value.null, some ⟨1950, 1, 1⟩, none, Value.null, "", none, 0, none⟩).age
        = some (some a) ∧ 60 ≤ a) ∧
    (withAge ⟨2024, 6, 15⟩
      ⟨Value.str "R1", Value.null, some ⟨1950, 1, 1⟩, none, Value.null, "", none, 0, none⟩).birth_date
      ≠ none :=
  let thm := get_retiree_records_spec ⟨2024, 6, 15⟩
    ⟨false, false, true, false, false, false,
      [⟨Value.str "R1", Value.null, some ⟨1950, 1, 1⟩, none, Value.null, "", none, 0, none⟩]⟩
    (withAge ⟨2024, 6, 15⟩
      ⟨Value.str "R1", Value.null, some ⟨1950, 1, 1⟩, none, Value.null, "", none, 0, none⟩)
    (by decide)
  ⟨thm.1, thm.2.1⟩

/-- C3: over every loaded table, a record is returned by the withdrawal
filter exactly when its coerced withdrawals value is a number different
from 0 — a missing or non-numeric raw cell is coerced to 0 by the loader
and therefore excluded — and the returned record preserves that value
(hence its sign); when the Withdrawals column is absent the result is
empty. -/
theorem get_withdrawal_records_spec :
    ∀ (today : SDate) (t : RawTable),
      (t.hasWithdrawals = false → get_withdrawal_records today (load_data t) = []) ∧
      (∀ r : Record,
        r ∈ get_withdrawal_records today (load_data t) ↔
          t.hasWithdrawals = true ∧
          ∃ raw ∈ t.rows, ∃ v : Int,
            toNumeric raw.withdrawals = some v ∧ v ≠ 0 ∧
            r = (if t.hasDob = true then withAge today (normalizeRow raw)
                 else normalizeRow raw) ∧
            r.withdrawals = v) := by
  intro today t
  have hflag : (load_data t).hasWithdrawals = t.hasWithdrawals := rfl
  have hbirth : (load_data t).hasBirth = t.hasDob := rfl
  constructor
  · intro h
    rw [get_withdrawal_records_def, hflag, if_pos h]
  · intro r
    rw [get_withdrawal_records_def, hflag, hbirth]
    by_cases hw : t.hasWithdrawals = false
    · rw [if_pos hw]
      simp only [List.not_mem_nil, false_iff, not_and]
      intro htrue
      rw [htrue] at hw
      cases hw
    · rw [if_neg hw]
      rw [show (load_data t).hasYear = t.hasYear from rfl,
        show (load_data t).hasMonth = t.hasMonth from rfl]
      have hwt : t.hasWithdrawals = true := by
        cases h : t.hasWithdrawals
        · exact absurd h hw
        · rfl
      have hmem : r ∈ (if (t.hasYear && t.hasMonth) = true
          then sortChrono (if t.hasDob = true
            then ((load_data t).rows.filter (fun r => decide (r.withdrawals ≠ 0))).map (withAge today)
            else (load_data t).rows.filter (fun r => decide (r.withdrawals ≠ 0)))
          else (if t.hasDob = true
            then ((load_data t).rows.filter (fun r => decide (r.withdrawals ≠ 0))).map (withAge today)
            else (load_data t).rows.filter (fun r => decide (r.withdrawals ≠ 0)))) ↔
          r ∈ (if t.hasDob = true
            then ((load_data t).rows.filter (fun r => decide (r.withdrawals ≠ 0))).map (withAge today)
            else (load_data t).rows.filter (fun r => decide (r.withdrawals ≠ 0))) := by
        by_cases hf : (t.hasYear && t.hasMonth) = true
        · rw [if_pos hf]
          exact mem_sortChrono _ r
        · rw [if_neg hf]
      rw [hmem]
      have hstep : r ∈ (if t.hasDob = true
          then ((load_data t).rows.filter (fun r => decide (r.withdrawals ≠ 0))).map (withAge today)
          else (load_data t).rows.filter (fun r => decide (r.withdrawals ≠ 0))) ↔
          ∃ r1 ∈ (load_data t).rows, r1.withdrawals ≠ 0 ∧
            r = (if t.hasDob = true then withAge today r1 else r1) := by
        by_cases hd : t.hasDob = true
        · rw [if_pos hd]
          rw [List.mem_map]
          constructor
          · rintro ⟨r1, hr1, rfl⟩
            rw [List.mem_filter] at hr1
            exact ⟨r1, hr1.1, by simpa using hr1.2, by rw [if_pos hd]⟩
          · rintro ⟨r1, hr1, hv, heq⟩
            rw [if_pos hd] at heq
            exact ⟨r1, List.mem_filter.mpr ⟨hr1, by simpa using hv⟩, heq.symm⟩
        · rw [if_neg hd]
          rw [List.mem_filter]
          constructor
          · rintro ⟨hr1, hv⟩
            exact ⟨r, hr1, by simpa using hv, by rw [if_neg hd]⟩
          · rintro ⟨r1, hr1, hv, heq⟩
            rw [if_neg hd] at heq
            subst heq
            exact ⟨hr1, by simpa using hv⟩
      rw [hstep]
      constructor
      · rintro ⟨r1, hr1, hv, heq⟩
        rw [mem_load_data] at hr1
        obtain ⟨raw, hraw, rfl⟩ := hr1
        have hwd : (normalizeRow raw).withdrawals = (toNumeric raw.withdrawals).getD 0 := rfl
        rcases hnum : toNumeric raw.withdrawals with _ | v
        · rw [hwd, hnum] at hv
          simp at hv
        · refine ⟨hwt, raw, hraw, v, hnum, ?_, heq, ?_⟩
          · intro hv0
            rw [hwd, hnum, hv0] at hv
            simp at hv
          · rw [heq]
            by_cases hd : t.hasDob = true
            · rw [if_pos hd]
              show (normalizeRow raw).withdrawals = v
              rw [hwd, hnum]
              rfl
            · rw [if_neg hd]
              rw [hwd, hnum]
              rfl
      · rintro ⟨_, raw, hraw, v, hnum, hv0, heq, _⟩
        refine ⟨normalizeRow raw, (mem_load_data t _).mpr ⟨raw, hraw, rfl⟩, ?_, heq⟩
        show (toNumeric raw.withdrawals).getD 0 ≠ 0
        rw [hnum]
        simpa using hv0

/-- Witness for C3: with the Withdrawals column absent the filter is empty. -/
theorem get_withdrawal_records_spec_witness :
    get_withdrawal_records ⟨2024, 6, 15⟩
      (load_data ⟨false, false, false, false, false, false, []⟩) = [] :=
  (get_withdrawal_records_spec ⟨2024, 6, 15⟩
    ⟨false, false, false, false, false, false, []⟩).1 rfl

/-- The rows of the lookup working copy that match a query, after both
sides are reduced to stripped string form. -/
theorem filter_match_ne_nil (ds : Dataset) (q : Value) :
    ((ds.rows.map stripUid).filter
      (fun r => decide (r.uid = Value.str (pyStrip (valueToStr q)))) ≠ []) ↔
    ∃ r ∈ ds.rows, pyStrip (valueToStr r.uid) = pyStrip (valueToStr q) := by
  constructor
  · intro h
    obtain ⟨c, hc⟩ := List.exists_mem_of_ne_nil _ h
    rw [List.mem_filter] at hc
    obtain ⟨hmem, hp⟩ := hc
    rw [List.mem_map] at hmem
    obtain ⟨r0, hr0, rfl⟩ := hmem
    refine ⟨r0, hr0, ?_⟩
    simpa [stripUid] using hp
  · rintro ⟨r0, hr0, heq⟩
    intro hnil
    have hin : stripUid r0 ∈ (ds.rows.map stripUid).filter
        (fun r => decide (r.uid = Value.str (pyStrip (valueToStr q)))) :=
      List.mem_filter.mpr ⟨List.mem_map_of_mem _ hr0, by simp [stripUid, heq]⟩
    rw [hnil] at hin
    cases hin

/-- A concrete one-row dataset whose stored identifier is the string "123". -/
def ds123 : Dataset :=
  ⟨true, false, false, false, false, false,
    [⟨Value.str "123", Value.null, none, none, Value.null, "", none, 0, none⟩]⟩

/-- C6: the lookup compares the stripped string form of every stored
identifier against the stripped string form of the query, so a lookup
finds a row exactly when some stored identifier agrees with the query up
to surrounding whitespace and string-versus-number representation; in
particular both the string " 123 " and the number 123 match the stored
string "123". -/
theorem search_trimmed_comparison :
    (∀ (ds : Dataset) (q : Value),
      (search_by_unit_holder_id ds q).2 ≠ [] ↔
        ds.hasId = true ∧
        ∃ r ∈ ds.rows, pyStrip (valueToStr r.uid) = pyStrip (valueToStr q)) ∧
    (search_by_unit_holder_id ds123 (Value.str " 123 ")).2 ≠ [] ∧
    (search_by_unit_holder_id ds123 (Value.num 123)).2 ≠ [] := by
  refine ⟨?_, by decide, by decide⟩
  intro ds q
  unfold search_by_unit_holder_id
  by_cases hid : ds.hasId = false
  · rw [if_pos hid]
    simp [hid]
  · rw [if_neg hid]
    have hid' : ds.hasId = true := by
      cases h : ds.hasId
      · exact absurd h hid
      · rfl
    rw [searchFrom_def]
    dsimp only
    by_cases hemp : ((ds.rows.map stripUid).filter
        (fun r => decide (r.uid = Value.str (pyStrip (valueToStr q))))).isEmpty = true
    · rw [if_pos hemp]
      rw [List.isEmpty_iff] at hemp
      constructor
      · intro h
        exact absurd rfl h
      · rintro ⟨_, hex⟩
        exact absurd hemp ((filter_match_ne_nil ds q).mpr hex)
    · rw [if_neg hemp]
      have hne : (ds.rows.map stripUid).filter
          (fun r => decide (r.uid = Value.str (pyStrip (valueToStr q)))) ≠ [] := by
        intro h
        exact hemp (by rw [h]; rfl)
      constructor
      · intro _
        exact ⟨hid', (filter_match_ne_nil ds q).mp hne⟩
      · intro _
        by_cases hf : (ds.hasYear && ds.hasMonth) = true
        · rw [if_pos hf]
          intro h
          exact hne (sortChrono_eq_nil.mp h)
        · rw [if_neg hf]
          exact hne

/-- Witness for C6: the whitespace-padded query matches the stored "123". -/
theorem search_trimmed_comparison_witness :
    ds123.hasId = true ∧
    ∃ r ∈ ds123.rows, pyStrip (valueToStr r.uid) = pyStrip (valueToStr (Value.str " 123 ")) :=
  (search_trimmed_comparison.1 ds123 (Value.str " 123 ")).mp (by decide)

/-- The rows of the lookup working copy matching a query. -/
def matchingRows (ds : Dataset) (q : Value) : List Record :=
  (ds.rows.map stripUid).filter (fun r => decide (r.uid = Value.str (pyStrip (valueToStr q))))

/-- The raw table of the specification scenario: two rows for identifier
"A1", one for 2021/Jan and one for 2022/Dec (stored latest-first, so the
sort has to reorder them). -/
def rtScenario : RawTable :=
  ⟨true, false, false, true, true, false,
    [⟨Value.str "A1", Value.null, Value.null, Value.num 2022, Value.str "Dec", Value.null⟩,
     ⟨Value.str "A1", Value.null, Value.null, Value.num 2021, Value.str "Jan", Value.null⟩]⟩

/-- C1 (amended): when the dataset has both the Year and the Month
columns, the lookup re-sorts the matching rows ascending by
(year, month rank), returns them all as the history in that ascending
order, and returns the last row of that order as the latest record; when
either column is missing the matching rows are returned in dataset order
and the latest is the last row of that order.  The concrete scenario:
for a dataset holding 2021/Jan and 2022/Dec rows for "A1", the latest is
the 2022/Dec row and the history is [2021-Jan, 2022-Dec]. -/
theorem search_latest_and_history :
    (∀ (ds : Dataset) (q : Value),
      ds.hasId = true → matchingRows ds q ≠ [] →
      (((ds.hasYear && ds.hasMonth) = true →
         (search_by_unit_holder_id ds q).2 = sortChrono (matchingRows ds q) ∧
         List.Pairwise chronoR (search_by_unit_holder_id ds q).2) ∧
       ((ds.hasYear && ds.hasMonth) = false →
         (search_by_unit_holder_id ds q).2 = matchingRows ds q) ∧
       (∃ last, (search_by_unit_holder_id ds q).2.getLast? = some last ∧
         (search_by_unit_holder_id ds q).1 = [last]))) ∧
    ((search_by_unit_holder_id (load_data rtScenario) (Value.str "A1")).2.map
        (fun r => (r.year, r.month_original)) = [(some 2021, "Jan"), (some 2022, "Dec")] ∧
     (search_by_unit_holder_id (load_data rtScenario) (Value.str "A1")).1.map
        (fun r => (r.year, r.month_original)) = [(some 2022, "Dec")]) := by
  refine ⟨?_, by decide⟩
  intro ds q hid hne
  unfold search_by_unit_holder_id
  rw [if_neg (fun h => by rw [hid] at h; cases h)]
  rw [searchFrom_def]
  dsimp only
  rw [show ((ds.rows.map stripUid).filter
      (fun r => decide (r.uid = Value.str (pyStrip (valueToStr q)))))
      = matchingRows ds q from rfl]
  have hemp : (matchingRows ds q).isEmpty = false := by
    cases hm : matchingRows ds q with
    | nil => exact absurd hm hne
    | cons c cs => rfl
  rw [hemp]
  rw [if_neg (fun h => by cases h)]
  by_cases hf : (ds.hasYear && ds.hasMonth) = true
  · rw [if_pos hf]
    refine ⟨fun _ => ⟨rfl, sorted_sortChrono _⟩,
      fun hff => by rw [hf] at hff; simp at hff, ?_⟩
    have hsne : sortChrono (matchingRows ds q) ≠ [] := by
      intro h
      exact hne (sortChrono_eq_nil.mp h)
    cases hl : (sortChrono (matchingRows ds q)).getLast? with
    | none => exact absurd (List.getLast?_eq_none_iff.mp hl) hsne
    | some last => exact ⟨last, rfl, rfl⟩
  · rw [if_neg hf]
    refine ⟨fun hff => absurd hff hf, fun _ => rfl, ?_⟩
    cases hl : (matchingRows ds q).getLast? with
    | none => exact absurd (List.getLast?_eq_none_iff.mp hl) hne
    | some last => exact ⟨last, rfl, rfl⟩

/-- Witness for C1 at the scenario table. -/
theorem search_latest_and_history_witness :
    (search_by_unit_holder_id (load_data rtScenario) (Value.str "A1")).2
      = sortChrono (matchingRows (load_data rtScenario) (Value.str "A1")) :=
  ((search_latest_and_history.1 (load_data rtScenario) (Value.str "A1")
    (by decide) (by decide)).1 (by decide)).1

/-- A raw table with a Year column but no Month column, holding the rows
for "A1" newest-first. -/
def rtNoMonth : RawTable :=
  ⟨true, false, false, true, false, false,
    [⟨Value.str "A1", Value.null, Value.null, Value.num 2022, Value.null, Value.null⟩,
     ⟨Value.str "A1", Value.null, Value.null, Value.num 2021, Value.null, Value.null⟩]⟩

/-- C1 counterexample: on a dataset with a Year column but no Month
column the lookup does not re-sort — the history comes back
[2022, 2021], which is not ascending by (year, month rank), and the
returned latest record is the 2021 row, not the chronologically last
one. -/
theorem search_latest_and_history_cex :
    (search_by_unit_holder_id (load_data rtNoMonth) (Value.str "A1")).2.map Record.year
      = [some 2022, some 2021] ∧
    (search_by_unit_holder_id (load_data rtNoMonth) (Value.str "A1")).1.map Record.year
      = [some 2021] ∧
    ¬ List.Pairwise chronoR (search_by_unit_holder_id (load_data rtNoMonth)
        (Value.str "A1")).2 := by decide

/-- C7 (amended): whenever the raw table has both the Year and the Month
columns, the loaded dataset is sorted ascending by (year, month rank)
with nulls last — `chronoR` orders null keys after all proper keys — and
each query function re-establishes that order on its result. -/
theorem chronological_sort_invariant :
    ∀ (t : RawTable) (today : SDate) (q : Value),
      (t.hasYear && t.hasMonth) = true →
      List.Pairwise chronoR (load_data t).rows ∧
      List.Pairwise chronoR (search_by_unit_holder_id (load_data t) q).2 ∧
      List.Pairwise chronoR (get_withdrawal_records today (load_data t)) ∧
      List.Pairwise chronoR (get_retiree_records today (load_data t)) := by
  intro t today q hf
  have hf' : ((load_data t).hasYear && (load_data t).hasMonth) = true := hf
  refine ⟨?_, ?_, ?_, ?_⟩
  · rw [load_data_rows, if_pos hf]
    exact sorted_sortChrono _
  · unfold search_by_unit_holder_id
    by_cases hid : (load_data t).hasId = false
    · rw [if_pos hid]
      exact List.Pairwise.nil
    · rw [if_neg hid, searchFrom_def]
      dsimp only
      by_cases hemp : (((load_data t).rows.map stripUid).filter
          (fun r => decide (r.uid = Value.str (pyStrip (valueToStr q))))).isEmpty = true
      · rw [if_pos hemp]
        exact List.Pairwise.nil
      · rw [if_neg hemp, if_pos hf']
        exact sorted_sortChrono _
  · rw [get_withdrawal_records_def]
    by_cases hw : (load_data t).hasWithdrawals = false
    · rw [if_pos hw]
      exact List.Pairwise.nil
    · rw [if_neg hw, if_pos hf']
      exact sorted_sortChrono _
  · rw [get_retiree_records_def]
    by_cases hb : (load_data t).hasBirth = false
    · rw [if_pos hb]
      exact List.Pairwise.nil
    · rw [if_neg hb, if_pos hf']
      exact sorted_sortChrono _

/-- Witness for C7 at the scenario table. -/
theorem chronological_sort_invariant_witness :
    List.Pairwise chronoR (load_data rtScenario).rows :=
  (chronological_sort_invariant rtScenario ⟨2024, 1, 1⟩ (Value.str "A1") (by decide)).1

/-- A raw table with a Year column but no Month column, rows newest-first. -/
def rtNoMonthLoader : RawTable :=
  ⟨false, false, false, true, false, false,
    [⟨Value.null, Value.null, Value.null, Value.num 2030, Value.null, Value.null⟩,
     ⟨Value.null, Value.null, Value.null, Value.num 2029, Value.null, Value.null⟩]⟩

/-- C7 counterexample: when the Month column is absent the loader does
not sort at all, so the loaded dataset keeps the file order [2030, 2029],
which is not ascending by (year, month rank). -/
theorem chronological_sort_invariant_cex :
    (load_data rtNoMonthLoader).rows.map Record.year = [some 2030, some 2029] ∧
    ¬ List.Pairwise chronoR (load_data rtNoMonthLoader).rows := by decide

/-- The effect of one export-and-reload cycle on a loaded record: every
recognized normalized field is reproduced; the only textual change is
that, when a Month column exists, the month cell now holds the preserved
original month string (the label), never the derived numeric rank. -/
def roundRow (hasMonth : Bool) (r : Record) : Record :=
  { r with month := if hasMonth then Value.str r.month_original else r.month }

theorem normalizeRow_exportRow (hasM : Bool) (raw : RawRow) :
    normalizeRow (exportRow hasM (normalizeRow raw)) = roundRow hasM (normalizeRow raw) := by
  have hbd : parseDate (match parseDate raw.dob with
      | some dt => Value.str (dateToISO dt)
      | none => Value.null) = parseDate raw.dob := by
    cases hpd : parseDate raw.dob with
    | none => rfl
    | some dt => exact parseDate_dateToISO raw.dob dt hpd
  have hyr : toNumeric (match toNumeric raw.year with
      | some y => Value.num y
      | none => Value.null) = toNumeric raw.year := by
    cases toNumeric raw.year with
    | none => rfl
    | some y => rfl
  cases hasM with
  | true =>
    unfold normalizeRow exportRow roundRow
    dsimp only
    refine Record.ext rfl ?_ ?_ ?_ rfl rfl rfl rfl rfl
    · show Value.str (pyStrip (pyStrip (valueToStr raw.ssnit)))
        = Value.str (pyStrip (valueToStr raw.ssnit))
      rw [pyStrip_idem]
    · exact hbd
    · exact hyr
  | false =>
    unfold normalizeRow exportRow roundRow
    dsimp only
    refine Record.ext rfl ?_ ?_ ?_ rfl rfl rfl rfl rfl
    · show Value.str (pyStrip (pyStrip (valueToStr raw.ssnit)))
        = Value.str (pyStrip (valueToStr raw.ssnit))
      rw [pyStrip_idem]
    · exact hbd
    · exact hyr

/-- C5: exporting any caller-selected subset of the loaded rows and then
re-loading the export reproduces every recognized normalized field of
every selected row (identifier, cleaned secondary identifier, parsed
birth date, numeric year, original month label, derived month rank, and
the numeric withdrawals value with its sign); the month value written to
the file is the preserved original label under the original Month column
name, never the derived rank, and when the subset is in dataset order the
re-loaded table consists of exactly the selected rows in that order with
only the month cell rewritten to the label. -/
theorem export_round_trip :
    ∀ (t : RawTable) (subset : List Record),
      (∀ r ∈ subset, r ∈ (load_data t).rows) →
      (∀ r ∈ subset,
        normalizeRow (exportRow (load_data t).hasMonth r)
          = roundRow (load_data t).hasMonth r) ∧
      (List.Pairwise chronoR subset →
        (load_data (exportTable (load_data t) subset)).rows =
          subset.map (roundRow (load_data t).hasMonth)) := by
  intro t subset hsub
  have hrow : ∀ r ∈ subset,
      normalizeRow (exportRow (load_data t).hasMonth r)
        = roundRow (load_data t).hasMonth r := by
    intro r hr
    obtain ⟨raw, _, rfl⟩ := (mem_load_data t r).mp (hsub r hr)
    exact normalizeRow_exportRow (load_data t).hasMonth raw
  refine ⟨hrow, ?_⟩
  intro hpair
  have hflag : (exportTable (load_data t) subset).hasYear = t.hasYear := rfl
  have hrows : (exportTable (load_data t) subset).rows
      = subset.map (exportRow (load_data t).hasMonth) := rfl
  rw [load_data_rows, hrows]
  have hmap : (subset.map (exportRow (load_data t).hasMonth)).map normalizeRow
      = subset.map (roundRow (load_data t).hasMonth) := by
    rw [List.map_map]
    exact List.map_congr_left hrow
  by_cases hf : ((exportTable (load_data t) subset).hasYear
      && (exportTable (load_data t) subset).hasMonth) = true
  · rw [if_pos hf, hmap]
    apply sortChrono_eq_self
    have hrel : ∀ a b : Record, chronoR a b →
        chronoR (roundRow (load_data t).hasMonth a) (roundRow (load_data t).hasMonth b) :=
      fun a b h => h
    exact hpair.map _ hrel
  · rw [if_neg hf, hmap]

/-- A concrete raw table exercising every recognized column, with junk
and null values included. -/
def rtRound : RawTable :=
  ⟨true, true, true, true, true, true,
    [⟨Value.num 7, Value.str " s1 ", Value.str "2000-06-15", Value.num 2021,
       Value.str " Jan", Value.str "  -50 "⟩,
     ⟨Value.str "a", Value.null, Value.str "junk", Value.null,
       Value.num 3, Value.null⟩]⟩

/-- Witness for C5: a full export-and-reload cycle on a concrete loaded
table reproduces all rows with only the month cell rewritten to the
preserved label. -/
theorem export_round_trip_witness :
    (load_data (exportTable (load_data rtRound) (load_data rtRound).rows)).rows =
      (load_data rtRound).rows.map (roundRow (load_data rtRound).hasMonth) :=
  (export_round_trip rtRound (load_data rtRound).rows
    (fun r hr => hr)).2 (by decide)

/-- C10: each query function leaves the caller's frame unchanged.  In the
heap model — where `.copy()` allocates a fresh slot and every in-place
column assignment of the source mutates only that fresh slot — the slot
the caller passed in still holds the original dataset after the call, and
the returned result is exactly the one computed by the pure function. -/
theorem queries_frame_pure :
    ∀ (h : Heap) (i : Nat) (ds : Dataset) (q : Value) (today : SDate),
      h.get? i = some ds →
      ((search_by_unit_holder_id_st h i q).1.get? i = some ds ∧
       (search_by_unit_holder_id_st h i q).2 = search_by_unit_holder_id ds q) ∧
      ((get_withdrawal_records_st h i today).1.get? i = some ds ∧
       (get_withdrawal_records_st h i today).2 = get_withdrawal_records today ds) ∧
      ((get_retiree_records_st h i today).1.get? i = some ds ∧
       (get_retiree_records_st h i today).2 = get_retiree_records today ds) := by
  intro h i ds q today hget
  have hlt : i < h.length := by
    rcases List.get?_eq_some.mp hget with ⟨hl, _⟩
    exact hl
  have hne : h.length ≠ i := by omega
  have happ : ∀ x : Dataset, (h ++ [x]).get? i = some ds := by
    intro x
    rw [List.get?_append hlt]
    exact hget
  have hsetne : ∀ (x v : Dataset), ((h ++ [x]).set h.length v).get? i = some ds := by
    intro x v
    rw [List.get?_set_ne _ _ hne]
    exact happ x
  have hsetj : ∀ (x v : Dataset), ((h ++ [x]).set h.length v).get? h.length = some v := by
    intro x v
    exact List.get?_set_eq_of_lt _ (by simp)
  refine ⟨?_, ?_, ?_⟩
  · unfold search_by_unit_holder_id_st
    rw [hget]
    dsimp only
    by_cases hid : ds.hasId = false
    · rw [if_pos hid]
      unfold search_by_unit_holder_id
      rw [if_pos hid]
      exact ⟨hget, rfl⟩
    · rw [if_neg hid]
      dsimp only
      rw [hsetj ds { ds with rows := ds.rows.map stripUid }]
      refine ⟨hsetne _ _, ?_⟩
      unfold search_by_unit_holder_id
      rw [if_neg hid]
      rfl
  · unfold get_withdrawal_records_st
    rw [hget]
    dsimp only
    by_cases hw : ds.hasWithdrawals = false
    · rw [if_pos hw]
      unfold get_withdrawal_records
      rw [if_pos hw]
      exact ⟨hget, rfl⟩
    · rw [if_neg hw]
      dsimp only
      constructor
      · by_cases hb : ds.hasBirth = true
        · rw [if_pos hb]
          exact hsetne _ _
        · rw [if_neg hb]
          exact happ _
      · unfold get_withdrawal_records
        rw [if_neg hw]
  · unfold get_retiree_records_st
    rw [hget]
    dsimp only
    by_cases hb : ds.hasBirth = false
    · rw [if_pos hb]
      unfold get_retiree_records
      rw [if_pos hb]
      exact ⟨hget, rfl⟩
    · rw [if_neg hb]
      dsimp only
      rw [hsetj ds { ds with rows := ds.rows.map (withAge today) }]
      refine ⟨hsetne _ _, ?_⟩
      unfold get_retiree_records
      rw [if_neg hb]
      rfl

/-- Witness for C10 on a concrete one-frame heap. -/
theorem queries_frame_pure_witness :
    (search_by_unit_holder_id_st [load_data rtScenario] 0 (Value.str "A1")).1.get? 0
      = some (load_data rtScenario) ∧
    (get_retiree_records_st [load_data rtScenario] 0 ⟨2024, 6, 15⟩).1.get? 0
      = some (load_data rtScenario) :=
  let thm := queries_frame_pure [load_data rtScenario] 0 (load_data rtScenario)
    (Value.str "A1") ⟨2024, 6, 15⟩ rfl
  ⟨thm.1.1, thm.2.2.1⟩

end SSNIT
